import Mathlib

/-!
Verification of the order-processing scheduler against its specification.

This file shallowly embeds the components of the scheduler that the
claims concern: the cache primitives of `app/redis_client.py`, the
per-user order queue and the user-order manager of
`app/user_order_manager.py`, the order-row update of `app/database.py`,
the disable-user event handler of `app/event_handler.py`, and the
status-change detector of `app/status_monitor.py`.  Pure functions are
translated to Lean functions; stateful code is translated to explicit
state passing (cache namespaces become finite maps, the store becomes
explicit table values, fallible store round-trips become `Option`
results).  Theorems about these definitions settle the claims.
-/

namespace OrderMonitor

/-- One key-value namespace of the cache (for example
`order:processing:<id>` or `user:lock:<id>`): a map from the numeric key
to the stored string value.  `none` models an absent (or expired) key. -/
abbrev KV := Nat → Option String

/-! ## Cache primitives (`app/redis_client.py`) -/

/-- Semantics of a plain cache `SET key value EX ttl` as issued by
`RedisManager.set` (`app/redis_client.py` lines 67-75): the key is
written unconditionally, and the call reports `true` on success.
Expiry only affects key absence later, which the `KV` state already
models via `none`. -/
def redis_set (store : KV) (key : Nat) (value : String) : Bool × KV :=
  (true, fun k => if k = key then some value else store k)

/-- `CacheService.set_order_processing` (`app/redis_client.py` lines
306-309): writes the worker id under `order:processing:<order_id>` with
a plain set (no set-if-absent flag). -/
def set_order_processing (marks : KV) (order_id : Nat) (worker_id : String) : Bool × KV :=
  redis_set marks order_id worker_id

/-- `CacheService.is_order_processing` (`app/redis_client.py` lines
316-319): true iff the processing-mark key exists. -/
def is_order_processing (marks : KV) (order_id : Nat) : Bool :=
  (marks order_id).isSome

/-- `CacheService.remove_order_processing` (`app/redis_client.py` lines
311-314): deletes the processing-mark key. -/
def remove_order_processing (marks : KV) (order_id : Nat) : KV :=
  fun k => if k = order_id then none else marks k

/-- Mark-acquisition phase of `OrderProcessor.process_order`
(`app/monitor_engine.py` lines 62-67): if a processing mark already
exists the order is skipped (`none`; the method returns false without
touching the mark); otherwise the mark is set unconditionally and
processing proceeds with the new mark state. -/
def process_order_mark_step (marks : KV) (order_id : Nat) (worker_id : String) : Option KV :=
  if is_order_processing marks order_id then none
  else some (set_order_processing marks order_id worker_id).2

/-- Semantics of the cache `SET key value NX EX timeout` issued by
`UserOrderManager._try_acquire_user_lock` (`app/user_order_manager.py`
lines 273-291) on the `user:lock:<id>` namespace: set only if the key is
absent, reporting whether this call set it. -/
def try_acquire_user_lock (locks : KV) (user_id : Nat) (worker_id : String) : Bool × KV :=
  match locks user_id with
  | some _ => (false, locks)
  | none => (true, fun k => if k = user_id then some worker_id else locks k)

/-- Semantics of the atomic compare-and-delete script run on the cache
server by `UserOrderManager.release_user_lock`
(`app/user_order_manager.py` lines 296-307): delete the lock key only
when its current value equals the releasing worker id.  The script
returns 1 on deletion and 0 otherwise; in the 0 case the caller only
logs a warning and the lock state is untouched. -/
def release_user_lock (locks : KV) (user_id : Nat) (worker_id : String) : Nat × KV :=
  if locks user_id = some worker_id then
    (1, fun k => if k = user_id then none else locks k)
  else
    (0, locks)

/-- `RedisManager.lpush` (`app/redis_client.py` lines 159-171): push the
serialized value onto the (unbounded) cache list and return the new list
length; when the cache round-trip fails the except branch pushes nothing
and returns 0.  The `ok` flag is whether the round-trip succeeds. -/
def lpush {α : Type} (ok : Bool) (queue : List α) (value : α) : Nat × List α :=
  if ok then (queue.length + 1, value :: queue) else (0, queue)

/-- `CacheService.push_order_to_queue` (`app/redis_client.py` lines
288-291): publish an event payload with `lpush` onto the `order:queue`
list; success is reported iff the returned length is positive. -/
def push_order_to_queue {α : Type} (ok : Bool) (queue : List α) (order_data : α) :
    Bool × List α :=
  let r := lpush ok queue order_data
  (decide (0 < r.1), r.2)

/-! ## Order rows and `OrderDAO.update_order_status` (`app/database.py`) -/

/-- Order status constants of `app/config.py` `ORDER_STATUS`:
PENDING, PARTIAL, FILLED, CANCELLED. -/
inductive OrderStatus where
  | pending
  | partialFill
  | filled
  | cancelled
deriving DecidableEq, Repr

/-- Row of the `orders` table, restricted to the columns
`OrderDAO.update_order_status` reads or writes. -/
structure OrderRow where
  id : Nat
  status : OrderStatus
  filled_quantity : Rat
  updated_at : Nat
  filled_at : Option Nat
deriving DecidableEq, Repr

/-- `OrderDAO.update_order_status` (`app/database.py` lines 275-301):
`update orders set status = ?, [filled_quantity = ?,] updated_at =
CURRENT_TIMESTAMP, filled_at = CASE WHEN ? IN (FILLED, PARTIAL) THEN
CURRENT_TIMESTAMP ELSE filled_at END where id = ?`.  The
`filled_quantity` column is written only when the optional argument is
supplied (the two SQL branches of the source). -/
def update_order_status (row : OrderRow) (status : OrderStatus)
    (filled_quantity : Option Rat) (now : Nat) : OrderRow :=
  match filled_quantity with
  | some q =>
    { row with
      status := status
      filled_quantity := q
      updated_at := now
      filled_at :=
        if status = OrderStatus.filled ∨ status = OrderStatus.partialFill then some now
        else row.filled_at }
  | none =>
    { row with
      status := status
      updated_at := now
      filled_at :=
        if status = OrderStatus.filled ∨ status = OrderStatus.partialFill then some now
        else row.filled_at }

/-! ## Users, groups and the disable-user handler
(`app/database.py`, `app/event_handler.py`) -/

/-- User status code `USER_STATUS['ENABLED']` of `app/config.py`. -/
def USER_ENABLED : Nat := 1

/-- User status code `USER_STATUS['DISABLED']` of `app/config.py`. -/
def USER_DISABLED : Nat := 0

/-- Group status code `GROUP_STATUS['OPEN']` of `app/config.py`. -/
def GROUP_OPEN : Nat := 1

/-- Group status code `GROUP_STATUS['CLOSED']` of `app/config.py`. -/
def GROUP_CLOSED : Nat := 0

/-- Row of the `users` table (columns the claims need). -/
structure UserRow where
  id : Nat
  status : Nat
deriving DecidableEq, Repr

/-- Row of the `order_groups` table (columns the claims need). -/
structure GroupRow where
  id : Nat
  user_id : Nat
  status : Nat
deriving DecidableEq, Repr

/-- The authoritative store tables read by the DAOs. -/
structure Tables where
  users : List UserRow
  order_groups : List GroupRow
deriving Repr

/-- `OrderGroupDAO.get_user_active_groups` (`app/database.py` lines
184-196): `select og.* from order_groups og join users u on og.user_id =
u.id where og.user_id = ? and og.status = OPEN and u.status = ENABLED
order by og.id`. -/
def get_user_active_groups (db : Tables) (user_id : Nat) : List GroupRow :=
  List.insertionSort (fun a b => a.id ≤ b.id)
    (db.order_groups.filter fun g =>
      decide (g.user_id = user_id ∧ g.status = GROUP_OPEN ∧
        ∃ u ∈ db.users, u.id = g.user_id ∧ u.status = USER_ENABLED))

/-- The `group:status:<id>` cache namespace written by
`CacheService.set_group_status`; values are the numeric status codes. -/
abbrev StatusHints := Nat → Option Nat

/-- `CacheService.set_group_status` (`app/redis_client.py` lines
278-281): write the status code under `group:status:<group_id>`. -/
def set_group_status (cache : StatusHints) (group_id : Nat) (status : Nat) : StatusHints :=
  fun k => if k = group_id then some status else cache k

/-- `UserStatusHandler._disable_user_monitoring` (`app/event_handler.py`
lines 221-230), run by the registered handler for
`UserStatusChange(Disabled)`: fetch the user's active groups from the
store, set each one's cache hint to CLOSED, and log a "user monitoring
disabled" line whose affected-group count is the number of fetched
groups.  The result is the new hint state and that logged count. -/
def disable_user_monitoring (db : Tables) (cache : StatusHints) (user_id : Nat) :
    StatusHints × Nat :=
  let groups := get_user_active_groups db user_id
  (groups.foldl (fun c g => set_group_status c g.id GROUP_CLOSED) cache, groups.length)

/-! ## Per-user order queues (`app/user_order_manager.py`) -/

/-- Row of the `orders` table as carried through the user queues (the
fields the queue and the manager read). -/
structure Order where
  id : Nat
  user_id : Nat
  group_id : Nat
  status : OrderStatus
  priority : Int
  created_at : Nat
deriving DecidableEq, Repr

/-- Sort relation of `UserOrderQueue.refresh_orders`
(`sort(key=lambda x: (-x.get('priority', 0), x['created_at']))`):
descending priority, ties broken by ascending creation time. -/
def refresh_le (a b : Order) : Prop :=
  b.priority < a.priority ∨ (a.priority = b.priority ∧ a.created_at ≤ b.created_at)

instance : DecidableRel refresh_le := fun a b => by
  unfold refresh_le; infer_instance

instance : IsTotal Order refresh_le where
  total a b := by
    unfold refresh_le
    rcases lt_trichotomy a.priority b.priority with h | h | h
    · exact Or.inr (Or.inl h)
    · rcases Nat.le_total a.created_at b.created_at with h2 | h2
      · exact Or.inl (Or.inr ⟨h, h2⟩)
      · exact Or.inr (Or.inr ⟨h.symm, h2⟩)
    · exact Or.inl (Or.inl h)

instance : IsTrans Order refresh_le where
  trans a b c hab hbc := by
    unfold refresh_le at *
    rcases hab with h1 | ⟨h1, h1c⟩
    · rcases hbc with h2 | ⟨h2, _⟩
      · exact Or.inl (h2.trans h1)
      · exact Or.inl (h2 ▸ h1)
    · rcases hbc with h2 | ⟨h2, h2c⟩
      · exact Or.inl (h1 ▸ h2)
      · exact Or.inr ⟨h1.trans h2, h1c.trans h2c⟩

/-- `UserOrderQueue.fetch_interval` (5 seconds, from `__init__`). -/
def fetch_interval : Nat := 5

/-- `UserOrderQueue.max_concurrent` (3 in-flight orders, from `__init__`). -/
def max_concurrent : Nat := 3

/-- State of a `UserOrderQueue` (`app/user_order_manager.py` lines
30-104): the pending deque, the in-flight (`processing_orders`) id set,
and the last-refresh timestamp.  Times are in whole seconds. -/
structure UserOrderQueue where
  user_id : Nat
  pending_orders : List Order
  processing_orders : Finset Nat
  last_fetch_time : Nat
deriving DecidableEq

/-- `UserOrderQueue.__init__`: empty deque, empty in-flight set,
last-fetch time 0. -/
def UserOrderQueue.init (user_id : Nat) : UserOrderQueue :=
  { user_id := user_id
    pending_orders := []
    processing_orders := ∅
    last_fetch_time := 0 }

/-- `UserOrderQueue.need_refresh` (lines 42-44):
`time.time() - last_fetch_time > fetch_interval`. -/
def need_refresh (q : UserOrderQueue) (now : Nat) : Bool :=
  decide (fetch_interval < now - q.last_fetch_time)

/-- `UserOrderQueue.refresh_orders` (lines 46-74).  The store round-trip
`order_dao.get_user_orders(user_id, status=[PENDING, PARTIAL])` is
passed in as `fetch`: `some rows` on success, `none` when it raises (the
except branch logs, returns 0 and leaves the state untouched).  On
success the fetched rows are filtered against the in-flight set, stably
sorted by (descending priority, ascending created-at), installed as the
new deque, and `last_fetch_time` becomes `now`; the number of queued
orders is returned. -/
def refresh_orders (q : UserOrderQueue) (fetch : Option (List Order)) (now : Nat) :
    UserOrderQueue × Nat :=
  match fetch with
  | none => (q, 0)
  | some user_orders =>
    let new_orders := user_orders.filter fun o => decide (o.id ∉ q.processing_orders)
    let sorted := List.insertionSort refresh_le new_orders
    ({ q with pending_orders := sorted, last_fetch_time := now }, sorted.length)

/-- `UserOrderQueue.get_next_order` (lines 76-89): refuse when the
in-flight set has reached `max_concurrent`; otherwise pop the head of
the deque, move its id into the in-flight set, and return it. -/
def get_next_order (q : UserOrderQueue) : Option Order × UserOrderQueue :=
  if max_concurrent ≤ q.processing_orders.card then (none, q)
  else
    match q.pending_orders with
    | [] => (none, q)
    | order :: rest =>
      (some order,
        { q with
          pending_orders := rest
          processing_orders := insert order.id q.processing_orders })

/-- `UserOrderQueue.mark_order_completed` (lines 91-94):
`processing_orders.discard(order_id)`; idempotent. -/
def mark_order_completed (q : UserOrderQueue) (order_id : Nat) : UserOrderQueue :=
  { q with processing_orders := q.processing_orders.erase order_id }

/-- One public operation on a `UserOrderQueue`, carrying the environment
data the operation consumes (the store fetch outcome and the clock). -/
inductive QueueOp where
  | refresh (fetch : Option (List Order)) (now : Nat)
  | take
  | complete (order_id : Nat)

/-- Apply one public queue operation (state part only). -/
def apply_op (q : UserOrderQueue) : QueueOp → UserOrderQueue
  | QueueOp.refresh fetch now => (refresh_orders q fetch now).1
  | QueueOp.take => (get_next_order q).2
  | QueueOp.complete order_id => mark_order_completed q order_id

/-- A refresh operation is well-formed when a successful store fetch
returns rows with pairwise distinct primary keys (`orders.id` is the
table's key).  The other operations are unconditionally well-formed. -/
def wf_op : QueueOp → Prop
  | QueueOp.refresh (some rows) _ => (rows.map Order.id).Nodup
  | QueueOp.refresh none _ => True
  | QueueOp.take => True
  | QueueOp.complete _ => True

instance (op : QueueOp) : Decidable (wf_op op) :=
  match op with
  | QueueOp.refresh (some rows) _ => inferInstanceAs (Decidable ((rows.map Order.id).Nodup))
  | QueueOp.refresh none _ => inferInstanceAs (Decidable True)
  | QueueOp.take => inferInstanceAs (Decidable True)
  | QueueOp.complete _ => inferInstanceAs (Decidable True)

/-- Queue invariant of the specification: pending ids are
duplicate-free, the deque and the in-flight set are disjoint (no order
id appears twice across sequence and in-flight), and the in-flight set
respects the `max_concurrent` bound. -/
def queue_inv (q : UserOrderQueue) : Prop :=
  (q.pending_orders.map Order.id).Nodup ∧
  (∀ o ∈ q.pending_orders, o.id ∉ q.processing_orders) ∧
  q.processing_orders.card ≤ max_concurrent

/-! ## The user-order manager (`app/user_order_manager.py`) -/

/-- `UserOrderManager.user_refresh_interval` (30 seconds). -/
def user_refresh_interval : Nat := 30

/-- State of `UserOrderManager` (lines 107-117).  `active_users` is the
Python set `self.active_users` carried in its internal iteration order;
`user_priority_scores` is the `defaultdict(float)` with default 0. -/
structure UserOrderManager where
  user_queues : Nat → Option UserOrderQueue
  active_users : List Nat
  user_priority_scores : Nat → Rat
  last_user_refresh : Nat

/-- Guard of `UserOrderManager.refresh_active_users` (lines 122-124):
the active-set refresh is due when at least `user_refresh_interval`
seconds have passed since `last_user_refresh`. -/
def active_refresh_due (m : UserOrderManager) (now : Nat) : Bool :=
  decide (user_refresh_interval ≤ now - m.last_user_refresh)

/-- `UserOrderManager.get_user_queue` (lines 176-181): return the
user's queue, creating a fresh one on first use. -/
def get_user_queue (m : UserOrderManager) (user_id : Nat) :
    UserOrderQueue × UserOrderManager :=
  match m.user_queues user_id with
  | some q => (q, m)
  | none =>
    let q := UserOrderQueue.init user_id
    (q, { m with user_queues := fun k => if k = user_id then some q else m.user_queues k })

/-- Batch-collection loop of `get_next_user_orders` (lines 249-255):
call `get_next_order` up to `batch_size` times, stopping at the first
`none`. -/
def take_batch (q : UserOrderQueue) : Nat → List Order × UserOrderQueue
  | 0 => ([], q)
  | n + 1 =>
    match get_next_order q with
    | (none, q1) => ([], q1)
    | (some o, q1) =>
      let r := take_batch q1 n
      (o :: r.1, r.2)

/-- Result of one `get_next_user_orders` call: the leased user and
batch (or the none sentinel), the manager and lock state after the
call, and the trace of users for which a lock acquisition was
attempted, in attempt order. -/
structure LeaseResult where
  leased : Option (Nat × List Order)
  manager : UserOrderManager
  locks : KV
  attempts : List Nat

/-- The `for user_id in self.active_users` loop of
`UserOrderManager.get_next_user_orders` (lines 238-265): attempt the
user lock; on success refresh the queue if due, take up to `batch_size`
orders, and either return them with the user id (lock still held) or
release the lock and continue with the next user. -/
def lease_loop (fetch : Nat → Option (List Order)) (now : Nat)
    (worker_id : String) (batch_size : Nat) :
    List Nat → UserOrderManager → KV → LeaseResult
  | [], m, locks => { leased := none, manager := m, locks := locks, attempts := [] }
  | user_id :: rest, m, locks =>
    let acq := try_acquire_user_lock locks user_id worker_id
    if acq.1 then
      let gq := get_user_queue m user_id
      let q1 :=
        if need_refresh gq.1 now then (refresh_orders gq.1 (fetch user_id) now).1 else gq.1
      let tb := take_batch q1 batch_size
      let m2 :=
        { gq.2 with
          user_queues := fun k => if k = user_id then some tb.2 else gq.2.user_queues k }
      if tb.1.isEmpty then
        let locks2 := (release_user_lock acq.2 user_id worker_id).2
        let r := lease_loop fetch now worker_id batch_size rest m2 locks2
        { r with attempts := user_id :: r.attempts }
      else
        { leased := some (user_id, tb.1), manager := m2, locks := acq.2,
          attempts := [user_id] }
    else
      let r := lease_loop fetch now worker_id batch_size rest m acq.2
      { r with attempts := user_id :: r.attempts }

/-- `UserOrderManager.get_next_user_orders` (lines 234-271): iterate the
active-user set in its internal order, attempting each user in turn.
This method performs no active-set refresh and consults no priority
score (unlike the single-order variant `get_next_user_order`,
lines 183-219, which does both). -/
def get_next_user_orders (fetch : Nat → Option (List Order)) (now : Nat)
    (m : UserOrderManager) (locks : KV) (worker_id : String) (batch_size : Nat) :
    LeaseResult :=
  lease_loop fetch now worker_id batch_size m.active_users m locks

/-! ## The status-change detector (`app/status_monitor.py`) -/

/-- One status dictionary of a snapshot (`user_statuses` or
`group_statuses`): insertion-ordered id-to-status pairs; as a Python
dict its keys are duplicate-free. -/
abbrev StatusDict := List (Nat × Nat)

/-- Python `dict.get`: the value stored at `key`, if present. -/
def dict_get (d : StatusDict) (key : Nat) : Option Nat :=
  match d with
  | [] => none
  | p :: rest => if p.1 = key then some p.2 else dict_get rest key

/-- `StatusSnapshot` (`app/status_monitor.py` lines 19-24), without the
timestamp field (no claim concerns it). -/
structure StatusSnapshot where
  user_statuses : StatusDict
  group_statuses : StatusDict
deriving DecidableEq, Repr

/-- The change records produced by `StatusChangeDetector` (the `type`
field of the emitted dicts, with each record's payload fields). -/
inductive StatusChange where
  | user_status_change (user_id old_status new_status : Nat)
  | user_added (user_id status : Nat)
  | group_status_change (group_id old_status new_status : Nat)
  | group_added (group_id status : Nat)
deriving DecidableEq, Repr

/-- The first loop shared by `_detect_user_changes` and
`_detect_group_changes`: for every entry of the current dictionary whose
key already existed with a different value, emit one status-change
record (built with `mk`), in current-dictionary order. -/
def status_change_records (last current : StatusDict)
    (mk : Nat → Nat → Nat → StatusChange) : List StatusChange :=
  current.filterMap fun p =>
    match dict_get last p.1 with
    | some old => if old ≠ p.2 then some (mk p.1 old p.2) else none
    | none => none

/-- The second loop shared by `_detect_user_changes` and
`_detect_group_changes`: one added-record (built with `mk`) per key of
the set difference `current - last`.  (The Python set difference is
iterated in an unspecified order; the current dictionary's order is
used here, which has the same membership and multiplicity.) -/
def added_records (last current : StatusDict) (mk : Nat → Nat → StatusChange) :
    List StatusChange :=
  current.filterMap fun p =>
    match dict_get last p.1 with
    | some _ => none
    | none => some (mk p.1 p.2)

/-- `StatusChangeDetector._detect_user_changes` (lines 53-80): the
status changes of users present in both snapshots, followed by a
`user_added` record per newly appearing user. -/
def detect_user_changes (last current : StatusSnapshot) : List StatusChange :=
  status_change_records last.user_statuses current.user_statuses
      StatusChange.user_status_change ++
    added_records last.user_statuses current.user_statuses StatusChange.user_added

/-- `StatusChangeDetector._detect_group_changes` (lines 82-109),
analogous to the user diff. -/
def detect_group_changes (last current : StatusSnapshot) : List StatusChange :=
  status_change_records last.group_statuses current.group_statuses
      StatusChange.group_status_change ++
    added_records last.group_statuses current.group_statuses StatusChange.group_added

/-- `StatusChangeDetector.detect_changes` (lines 34-51): on the first
call (`last_snapshot is None`) record the snapshot as the baseline and
return no changes; otherwise report the user changes followed by the
group changes, and advance the stored snapshot. -/
def detect_changes (last_snapshot : Option StatusSnapshot) (current : StatusSnapshot) :
    List StatusChange × Option StatusSnapshot :=
  match last_snapshot with
  | none => ([], some current)
  | some last =>
    (detect_user_changes last current ++ detect_group_changes last current, some current)

/-! ## Concrete states used by counterexamples and witnesses -/

/-- Mark state in which order 1 carries a live processing mark held by
worker A. -/
def c1_marks : KV := fun k => if k = 1 then some "workerA" else none

/-- A pending order row before any fill. -/
def c3_row : OrderRow :=
  { id := 200
    status := OrderStatus.pending
    filled_quantity := 0
    updated_at := 0
    filled_at := none }

/-- Store state in which user 1 is already Disabled (as it is when the
`UserStatusChange(Disabled)` event is handled) and owns the Open group
10. -/
def c4_db : Tables :=
  { users := [{ id := 1, status := USER_DISABLED }]
    order_groups := [{ id := 10, user_id := 1, status := GROUP_OPEN }] }

/-- Store state in which the Enabled user 1 owns the Open group 10 and
the Closed group 11. -/
def c4_witness_db : Tables :=
  { users := [{ id := 1, status := USER_ENABLED }]
    order_groups :=
      [{ id := 10, user_id := 1, status := GROUP_OPEN },
       { id := 11, user_id := 1, status := GROUP_CLOSED }] }

/-- Lock state in which worker A holds the lock of user 1. -/
def c8_locks : KV := fun k => if k = 1 then some "workerA" else none

/-- A freshly refreshed empty queue (last fetch at time 100). -/
def c2_queue (user_id : Nat) : UserOrderQueue :=
  { user_id := user_id
    pending_orders := []
    processing_orders := ∅
    last_fetch_time := 100 }

/-- Manager state with two active users carried in set order `[1, 2]`,
user 2 holding the higher priority score, and an active-set refresh that
is overdue at time 100. -/
def c2_manager : UserOrderManager :=
  { user_queues := fun k => if k = 1 ∨ k = 2 then some (c2_queue k) else none
    active_users := [1, 2]
    user_priority_scores := fun k => if k = 2 then 5 else if k = 1 then 1 else 0
    last_user_refresh := 0 }

/-- The lease call of worker 0 at time 100 on `c2_manager`, with no
lock held and an empty store. -/
def c2_result : LeaseResult :=
  get_next_user_orders (fun _ => some []) 100 c2_manager (fun _ => none) "worker_0" 10

/-- A queue with order 7 in flight and a stale fetch time. -/
def c6_queue : UserOrderQueue :=
  { user_id := 1
    pending_orders := []
    processing_orders := {7}
    last_fetch_time := 0 }

/-- A fetched working set containing the in-flight order 7 and the
fresh order 8. -/
def c6_rows : List Order :=
  [{ id := 7, user_id := 1, group_id := 1, status := OrderStatus.pending,
     priority := 2, created_at := 3 },
   { id := 8, user_id := 1, group_id := 1, status := OrderStatus.partialFill,
     priority := 1, created_at := 4 }]

/-- A high-priority pending order. -/
def c7_o1 : Order :=
  { id := 1, user_id := 1, group_id := 1, status := OrderStatus.pending,
    priority := 5, created_at := 1 }

/-- A lower-priority pending order. -/
def c7_o2 : Order :=
  { id := 2, user_id := 1, group_id := 1, status := OrderStatus.pending,
    priority := 3, created_at := 2 }

/-- One refresh operation delivering the two orders at time 10. -/
def c7_ops : List QueueOp := [QueueOp.refresh (some [c7_o1, c7_o2]) 10]

/-- The queue reached from `c7_ops` after one take: order 1 in flight,
order 2 still pending. -/
def c7_q1 : UserOrderQueue :=
  { user_id := 1
    pending_orders := [c7_o2]
    processing_orders := {1}
    last_fetch_time := 10 }

/-- Baseline snapshot: user 1 Enabled, user 3 Enabled; group 10 Open. -/
def c9_s1 : StatusSnapshot :=
  { user_statuses := [(1, 1), (3, 1)]
    group_statuses := [(10, 1)] }

/-- Next snapshot: user 1 now Disabled, user 3 gone, user 4 appeared
Enabled; group 10 now Closed, group 11 appeared Open. -/
def c9_s2 : StatusSnapshot :=
  { user_statuses := [(1, 0), (4, 1)]
    group_statuses := [(10, 0), (11, 1)] }

end OrderMonitor

/-! ## Theorems -/

namespace OrderMonitor

/-- Claim C1, counterexample: a processing mark for order 1 is live
(held by worker A), yet `set_order_processing` called by worker B still
returns `true` and overwrites the holder — a plain set, not the
set-if-absent discipline of the user lock, under which the call would
have returned `false` while the mark existed. -/
theorem c1_counterexample :
    is_order_processing c1_marks 1 = true ∧
    (set_order_processing c1_marks 1 "workerB").1 = true ∧
    (set_order_processing c1_marks 1 "workerB").2 1 = some "workerB" :=
  ⟨rfl, rfl, rfl⟩

/-- Claim C1, amended: `set_order_processing` is a plain set: it reports
`true` and installs the caller as holder even while a mark is live.  The
skip of the claim is instead implemented inside `process_order`, which
consults `is_order_processing` first and, exactly when a mark exists,
skips the order without touching the mark — a non-atomic check-then-set
rather than the user lock's atomic set-if-absent. -/
theorem c1_amended (marks : KV) (order_id : Nat) (worker_id : String)
    (h : is_order_processing marks order_id = true) :
    (set_order_processing marks order_id worker_id).1 = true ∧
    (set_order_processing marks order_id worker_id).2 order_id = some worker_id ∧
    process_order_mark_step marks order_id worker_id = none := by
  refine ⟨rfl, ?_, ?_⟩
  · simp [set_order_processing, redis_set]
  · simp [process_order_mark_step, h]

/-- Witness for the amended claim C1 at the concrete mark state. -/
theorem c1_amended_witness :
    (set_order_processing c1_marks 1 "workerB").2 1 = some "workerB" ∧
    process_order_mark_step c1_marks 1 "workerB" = none :=
  ⟨(c1_amended c1_marks 1 "workerB" rfl).2.1, (c1_amended c1_marks 1 "workerB" rfl).2.2⟩

/-- Claim C3, counterexample: updating the pending order 200 to the
Partial state with filled quantity 40 at time 10 sets `filled_at` to the
current time — the SQL CASE lists both FILLED and PARTIAL — although the
claim says a Partial update leaves `filled_at` unchanged. -/
theorem c3_counterexample :
    c3_row.filled_at = none ∧
    (update_order_status c3_row OrderStatus.partialFill (some 40) 10).filled_at = some 10 := by
  refine ⟨rfl, ?_⟩
  simp [update_order_status, c3_row]

/-- Claim C3, amended: an order-row update issued after a reported
change (new status `s`, filled quantity `q`) always writes status,
filled quantity and updated-at, and sets `filled_at` to the current time
iff `s` is the terminal Filled state or the Partial state; only for the
remaining statuses is `filled_at` left unchanged. -/
theorem c3_amended (row : OrderRow) (s : OrderStatus) (q : Rat) (now : Nat)
    (h : s = OrderStatus.filled ∨ s = OrderStatus.partialFill) :
    (update_order_status row s (some q) now).status = s ∧
    (update_order_status row s (some q) now).filled_quantity = q ∧
    (update_order_status row s (some q) now).updated_at = now ∧
    (update_order_status row s (some q) now).filled_at = some now ∧
    (∀ s2 : OrderStatus, s2 ≠ OrderStatus.filled → s2 ≠ OrderStatus.partialFill →
      (update_order_status row s2 (some q) now).filled_at = row.filled_at) := by
  refine ⟨rfl, rfl, rfl, ?_, ?_⟩
  · simp [update_order_status, h]
  · intro s2 h1 h2
    simp [update_order_status, h1, h2]

/-- Witness for the amended claim C3: a Filled update stamps
`filled_at`; a Cancelled update leaves it at its old value. -/
theorem c3_amended_witness :
    (update_order_status c3_row OrderStatus.filled (some 10) 7).filled_at = some 7 ∧
    (update_order_status c3_row OrderStatus.cancelled (some 10) 7).filled_at = c3_row.filled_at := by
  have h := c3_amended c3_row OrderStatus.filled 10 7 (Or.inl rfl)
  exact ⟨h.2.2.2.1, h.2.2.2.2 OrderStatus.cancelled (by decide) (by decide)⟩

/-- Claim C5, counterexample: there is no finite bound at which
publishing fails — for every queue length B, a state with B events
already enqueued still sees the next `push_order_to_queue` return
`true`, because the cache list is unbounded and a successful `lpush`
always yields a positive length. -/
theorem c5_counterexample :
    ¬ ∃ B : Nat, ∀ queue : List Nat, queue.length = B →
        (push_order_to_queue true queue 0).1 = false := by
  rintro ⟨B, h⟩
  have h2 := h (List.replicate B 0) (List.length_replicate B 0)
  simp [push_order_to_queue, lpush] at h2

/-- Claim C5, amended: publishing pushes onto an unbounded cache list:
`push_order_to_queue` reports `true` exactly when the cache round-trip
succeeds — for any number of already-enqueued events — and then the
event is prepended to the list; when the round-trip fails it reports
`false` and the list is unchanged, so no event is dropped without a
`false` return to the publisher. -/
theorem c5_amended (ok : Bool) (queue : List Nat) (order_data : Nat) :
    (push_order_to_queue ok queue order_data).1 = ok ∧
    (ok = true → (push_order_to_queue ok queue order_data).2 = order_data :: queue) ∧
    (ok = false → (push_order_to_queue ok queue order_data).2 = queue) := by
  cases ok <;> simp [push_order_to_queue, lpush]

/-- Witness for the amended claim C5 at a concrete queue. -/
theorem c5_amended_witness :
    (push_order_to_queue true [5] 7).1 = true ∧
    (push_order_to_queue true [5] 7).2 = [7, 5] :=
  ⟨(c5_amended true [5] 7).1, (c5_amended true [5] 7).2.1 rfl⟩

/-- Claim C8: the release script deletes the lock iff the current
holder is the releasing worker — on a match exactly the user's lock key
is removed (script result 1), on a mismatch or an absent lock the state
is wholly unchanged and the script returns 0 (the caller only logs a
warning) — and release is idempotent: an immediate second release by
the same worker is always a no-op returning 0. -/
theorem c8_release_lock (locks : KV) (user_id : Nat) (worker_id : String) :
    ((release_user_lock locks user_id worker_id).1 = 1 ↔
        locks user_id = some worker_id) ∧
    (locks user_id = some worker_id →
      (release_user_lock locks user_id worker_id).2 user_id = none ∧
      ∀ k, k ≠ user_id → (release_user_lock locks user_id worker_id).2 k = locks k) ∧
    (locks user_id ≠ some worker_id →
      (release_user_lock locks user_id worker_id).2 = locks ∧
      (release_user_lock locks user_id worker_id).1 = 0) ∧
    release_user_lock (release_user_lock locks user_id worker_id).2 user_id worker_id
      = (0, (release_user_lock locks user_id worker_id).2) := by
  by_cases h : locks user_id = some worker_id
  · refine ⟨by simp [release_user_lock, h], fun _ => ⟨?_, ?_⟩, fun h2 => absurd h h2, ?_⟩
    · simp [release_user_lock, h]
    · intro k hk
      simp [release_user_lock, h, hk]
    · simp [release_user_lock, h]
  · refine ⟨by simp [release_user_lock, h], fun h2 => absurd h2 h, fun _ => ⟨?_, ?_⟩, ?_⟩
    · simp [release_user_lock, h]
    · simp [release_user_lock, h]
    · simp [release_user_lock, h]

/-- Witness for claim C8: worker A's release of its own lock on user 1
deletes the lock and reports 1; the immediate second release is a no-op
reporting 0. -/
theorem c8_release_lock_witness :
    (release_user_lock c8_locks 1 "workerA").2 1 = none ∧
    (release_user_lock c8_locks 1 "workerA").1 = 1 ∧
    release_user_lock (release_user_lock c8_locks 1 "workerA").2 1 "workerA"
      = (0, (release_user_lock c8_locks 1 "workerA").2) := by
  have h := c8_release_lock c8_locks 1 "workerA"
  exact ⟨(h.2.1 rfl).1, h.1.mpr rfl, h.2.2.2⟩

/-- Folding the per-group hint update over a group list sets exactly
the listed ids to CLOSED and leaves every other key untouched. -/
theorem fold_close_hints (gs : List GroupRow) (cache : StatusHints) (k : Nat) :
    (gs.foldl (fun c g => set_group_status c g.id GROUP_CLOSED) cache) k =
      if k ∈ gs.map GroupRow.id then some GROUP_CLOSED else cache k := by
  induction gs generalizing cache with
  | nil => simp
  | cons g gs ih =>
    simp only [List.foldl_cons, ih, List.map_cons, List.mem_cons]
    by_cases hk : k ∈ gs.map GroupRow.id
    · simp [hk]
    · by_cases hg : k = g.id
      · simp [hk, hg, set_group_status]
      · simp [hk, hg, set_group_status]

/-- Claim C4, counterexample: user 1 owns exactly one group (the Open
group 10), yet the disable handler marks no group at all and logs the
count 0 — `get_user_active_groups` joins on `users.status = ENABLED`,
and the user row is already Disabled when the
`UserStatusChange(Disabled)` event is handled — so group 10's cache
hint stays unset. -/
theorem c4_counterexample :
    (c4_db.order_groups.filter fun g => decide (g.user_id = 1)).length = 1 ∧
    (disable_user_monitoring c4_db (fun _ => none) 1).1 10 = none ∧
    (disable_user_monitoring c4_db (fun _ => none) 1).2 = 0 := by
  refine ⟨by decide, by decide, by decide⟩

/-- Claim C4, amended: on `UserStatusChange(Disabled)` the handler marks
as Closed exactly the user's *active* groups — those whose group status
is Open and whose owner's user status is still Enabled in the store,
i.e. the rows `get_user_active_groups` returns — leaving every other
group's hint untouched, and the "user monitoring disabled" log line
reports exactly the number of groups so marked. -/
theorem c4_amended (db : Tables) (cache : StatusHints) (user_id : Nat) :
    (∀ g ∈ get_user_active_groups db user_id,
      (disable_user_monitoring db cache user_id).1 g.id = some GROUP_CLOSED) ∧
    (∀ k, k ∉ (get_user_active_groups db user_id).map GroupRow.id →
      (disable_user_monitoring db cache user_id).1 k = cache k) ∧
    (disable_user_monitoring db cache user_id).2 =
      (get_user_active_groups db user_id).length := by
  refine ⟨?_, ?_, rfl⟩
  · intro g hg
    have hmem : g.id ∈ (get_user_active_groups db user_id).map GroupRow.id :=
      List.mem_map_of_mem GroupRow.id hg
    simp [disable_user_monitoring, fold_close_hints, hmem]
  · intro k hk
    simp [disable_user_monitoring, fold_close_hints, hk]

/-- Witness for the amended claim C4: for the Enabled user 1 the Open
group 10 is marked Closed, the Closed group 11 is left untouched, and
the logged count is 1. -/
theorem c4_amended_witness :
    (disable_user_monitoring c4_witness_db (fun _ => none) 1).1 10 = some GROUP_CLOSED ∧
    (disable_user_monitoring c4_witness_db (fun _ => none) 1).1 11 = none ∧
    (disable_user_monitoring c4_witness_db (fun _ => none) 1).2 = 1 := by
  have h := c4_amended c4_witness_db (fun _ => none) 1
  refine ⟨h.1 ⟨10, 1, GROUP_OPEN⟩ (by decide), h.2.1 11 (by decide), ?_⟩
  rw [h.2.2]
  decide

/-- Claim C6: a successful refresh replaces the pending sequence by the
fetched pending-and-partial rows minus the in-flight ids — the new
sequence is a permutation of that filtered fetch, sorted by descending
priority then ascending created-at, and contains no in-flight id — it
leaves the in-flight set unchanged, stamps the last-refresh time with
`now`, and returns the number of queued orders; a failed store fetch
returns 0 and leaves the whole queue state untouched. -/
theorem c6_refresh (q : UserOrderQueue) (now : Nat) (rows : List Order) :
    List.Perm (refresh_orders q (some rows) now).1.pending_orders
      (rows.filter fun o => decide (o.id ∉ q.processing_orders)) ∧
    List.Sorted refresh_le (refresh_orders q (some rows) now).1.pending_orders ∧
    (∀ o ∈ (refresh_orders q (some rows) now).1.pending_orders,
      o.id ∉ q.processing_orders) ∧
    (refresh_orders q (some rows) now).1.processing_orders = q.processing_orders ∧
    (refresh_orders q (some rows) now).1.last_fetch_time = now ∧
    (refresh_orders q (some rows) now).2 =
      (refresh_orders q (some rows) now).1.pending_orders.length ∧
    refresh_orders q none now = (q, 0) := by
  refine ⟨List.perm_insertionSort refresh_le _, List.sorted_insertionSort refresh_le _,
    ?_, rfl, rfl, rfl, rfl⟩
  intro o ho
  have hmem : o ∈ rows.filter fun o => decide (o.id ∉ q.processing_orders) :=
    (List.perm_insertionSort refresh_le _).mem_iff.mp ho
  exact of_decide_eq_true (List.mem_filter.mp hmem).2

/-- Witness for claim C6 at a concrete queue and fetch. -/
theorem c6_refresh_witness :
    (refresh_orders c6_queue (some c6_rows) 50).1.processing_orders =
      c6_queue.processing_orders ∧
    (refresh_orders c6_queue (some c6_rows) 50).1.last_fetch_time = 50 ∧
    refresh_orders c6_queue none 50 = (c6_queue, 0) := by
  have h := c6_refresh c6_queue 50 c6_rows
  exact ⟨h.2.2.2.1, h.2.2.2.2.1, h.2.2.2.2.2.2⟩

/-- The freshly created queue satisfies the queue invariant. -/
theorem queue_inv_init (user_id : Nat) : queue_inv (UserOrderQueue.init user_id) := by
  refine ⟨List.nodup_nil, by simp [UserOrderQueue.init], ?_⟩
  simp [UserOrderQueue.init, max_concurrent]

/-- A well-formed refresh preserves the queue invariant. -/
theorem queue_inv_refresh (q : UserOrderQueue) (fetch : Option (List Order)) (now : Nat)
    (hq : queue_inv q) (hwf : wf_op (QueueOp.refresh fetch now)) :
    queue_inv (refresh_orders q fetch now).1 := by
  match fetch with
  | none => exact hq
  | some rows =>
    have hperm :
        List.Perm
          (List.insertionSort refresh_le
            (rows.filter fun o => decide (o.id ∉ q.processing_orders)))
          (rows.filter fun o => decide (o.id ∉ q.processing_orders)) :=
      List.perm_insertionSort refresh_le _
    have hfilter_nodup :
        ((rows.filter fun o => decide (o.id ∉ q.processing_orders)).map Order.id).Nodup :=
      hwf.sublist ((List.filter_sublist rows).map Order.id)
    refine ⟨(hperm.map Order.id).nodup_iff.mpr hfilter_nodup, ?_, hq.2.2⟩
    intro o ho
    have hmem : o ∈ rows.filter fun o => decide (o.id ∉ q.processing_orders) :=
      hperm.mem_iff.mp ho
    exact of_decide_eq_true (List.mem_filter.mp hmem).2

/-- Taking an order preserves the queue invariant. -/
theorem queue_inv_take (q : UserOrderQueue) (hq : queue_inv q) :
    queue_inv (get_next_order q).2 := by
  unfold get_next_order
  by_cases hb : max_concurrent ≤ q.processing_orders.card
  · rw [if_pos hb]
    exact hq
  · rw [if_neg hb]
    rcases hp : q.pending_orders with _ | ⟨o, rest⟩
    · exact hq
    · have hnodup := hq.1
      rw [hp] at hnodup
      simp only [List.map_cons, List.nodup_cons] at hnodup
      refine ⟨hnodup.2, ?_, ?_⟩
      · intro o2 ho2 hmem
        rcases Finset.mem_insert.mp hmem with he | hin
        · exact hnodup.1 (he ▸ List.mem_map_of_mem Order.id ho2)
        · exact hq.2.1 o2 (hp.symm ▸ List.mem_cons_of_mem o ho2) hin
      · exact le_trans (Finset.card_insert_le o.id q.processing_orders)
          (Nat.succ_le_of_lt (Nat.lt_of_not_le hb))

/-- Completing an order preserves the queue invariant. -/
theorem queue_inv_complete (q : UserOrderQueue) (order_id : Nat) (hq : queue_inv q) :
    queue_inv (mark_order_completed q order_id) :=
  ⟨hq.1,
   fun o ho hmem => hq.2.1 o ho (Finset.mem_of_mem_erase hmem),
   le_trans (Finset.card_erase_le) hq.2.2⟩

/-- Any sequence of well-formed public operations preserves the queue
invariant. -/
theorem queue_inv_foldl (ops : List QueueOp) (q : UserOrderQueue) (hq : queue_inv q)
    (hwf : ∀ op ∈ ops, wf_op op) : queue_inv (ops.foldl apply_op q) := by
  induction ops generalizing q with
  | nil => exact hq
  | cons op ops ih =>
    refine ih _ ?_ fun o ho => hwf o (List.mem_cons_of_mem _ ho)
    have h1 := hwf op (List.mem_cons_self _ _)
    match op with
    | QueueOp.refresh fetch now => exact queue_inv_refresh q fetch now hq h1
    | QueueOp.take => exact queue_inv_take q hq
    | QueueOp.complete order_id => exact queue_inv_complete q order_id hq

/-- An order returned by a take was the head of the pending sequence. -/
theorem take_some_mem (q : UserOrderQueue) (o : Order) (q' : UserOrderQueue)
    (h : get_next_order q = (some o, q')) : o ∈ q.pending_orders := by
  unfold get_next_order at h
  by_cases hb : max_concurrent ≤ q.processing_orders.card
  · rw [if_pos hb] at h
    simp at h
  · rw [if_neg hb] at h
    rcases hp : q.pending_orders with _ | ⟨o0, rest⟩
    · rw [hp] at h
      simp at h
    · rw [hp] at h
      simp only [Prod.mk.injEq, Option.some.injEq] at h
      obtain ⟨h1, h2⟩ := h
      subst h1
      exact List.mem_cons_self _ _

/-- What a successful take guarantees on an invariant-satisfying
queue. -/
theorem take_facts (q : UserOrderQueue) (hq : queue_inv q) (o : Order)
    (q' : UserOrderQueue) (h : get_next_order q = (some o, q')) :
    q.processing_orders.card < max_concurrent ∧
    q.pending_orders ≠ [] ∧
    o.id ∉ q'.pending_orders.map Order.id ∧
    o.id ∈ q'.processing_orders := by
  unfold get_next_order at h
  by_cases hb : max_concurrent ≤ q.processing_orders.card
  · rw [if_pos hb] at h
    simp at h
  · rw [if_neg hb] at h
    rcases hp : q.pending_orders with _ | ⟨o0, rest⟩
    · rw [hp] at h
      simp at h
    · rw [hp] at h
      simp only [Prod.mk.injEq, Option.some.injEq] at h
      obtain ⟨h1, h2⟩ := h
      subst h1
      have hnodup := hq.1
      rw [hp] at hnodup
      simp only [List.map_cons, List.nodup_cons] at hnodup
      refine ⟨Nat.lt_of_not_le hb, by simp [hp], ?_, ?_⟩
      · rw [← h2]
        exact hnodup.1
      · rw [← h2]
        exact Finset.mem_insert_self _ q.processing_orders

/-- Claim C7: along every sequence of well-formed public operations
from a fresh queue, the pending sequence and the in-flight set stay
disjoint, no order id appears twice across them, and the in-flight set
respects the bound `max_concurrent` (3); moreover a take returns an
order only when the in-flight set is below the bound and the sequence
is non-empty, the returned id leaves the sequence (entering in-flight)
before the call returns, and a second take can never yield the same
id. -/
theorem c7_queue_discipline (user_id : Nat) (ops : List QueueOp)
    (hwf : ∀ op ∈ ops, wf_op op) :
    queue_inv (ops.foldl apply_op (UserOrderQueue.init user_id)) ∧
    (∀ (o : Order) (q' : UserOrderQueue),
      get_next_order (ops.foldl apply_op (UserOrderQueue.init user_id)) = (some o, q') →
      (ops.foldl apply_op (UserOrderQueue.init user_id)).processing_orders.card
          < max_concurrent ∧
      (ops.foldl apply_op (UserOrderQueue.init user_id)).pending_orders ≠ [] ∧
      o.id ∉ q'.pending_orders.map Order.id ∧
      o.id ∈ q'.processing_orders ∧
      (∀ (o2 : Order) (q2 : UserOrderQueue),
        get_next_order q' = (some o2, q2) → o2.id ≠ o.id)) := by
  have hinv := queue_inv_foldl ops _ (queue_inv_init user_id) hwf
  refine ⟨hinv, ?_⟩
  intro o q' h
  have hf := take_facts _ hinv o q' h
  refine ⟨hf.1, hf.2.1, hf.2.2.1, hf.2.2.2, ?_⟩
  intro o2 q2 h2 he
  have ho2 : o2 ∈ q'.pending_orders := take_some_mem q' o2 q2 h2
  exact hf.2.2.1 (he ▸ List.mem_map_of_mem Order.id ho2)

/-- Witness for claim C7: after one delivering refresh, the taken state
is below the bound with a non-empty sequence. -/
theorem c7_queue_discipline_witness :
    (c7_ops.foldl apply_op (UserOrderQueue.init 1)).processing_orders.card
        < max_concurrent ∧
    (c7_ops.foldl apply_op (UserOrderQueue.init 1)).pending_orders ≠ [] := by
  have h := (c7_queue_discipline 1 c7_ops (by decide)).2 c7_o1 c7_q1 (by decide)
  exact ⟨h.1, h.2.1⟩

/-- Creating a user queue on demand does not touch the manager's
active-set refresh timestamp. -/
theorem get_user_queue_last_refresh (m : UserOrderManager) (user_id : Nat) :
    (get_user_queue m user_id).2.last_user_refresh = m.last_user_refresh := by
  unfold get_user_queue
  split <;> rfl

/-- Extending a prefix below a shared head. -/
theorem isPrefix_cons (a : Nat) (l1 l2 : List Nat) (h : List.IsPrefix l1 l2) :
    List.IsPrefix (a :: l1) (a :: l2) := by
  obtain ⟨t, ht⟩ := h
  exact ⟨t, by rw [List.cons_append, ht]⟩

/-- The lease loop attempts users in list order — its attempt trace is
a prefix of the user list — and never touches the manager's active-set
refresh timestamp. -/
theorem lease_loop_spec (fetch : Nat → Option (List Order)) (now : Nat)
    (worker_id : String) (batch_size : Nat) (users : List Nat) :
    ∀ (m : UserOrderManager) (locks : KV),
      List.IsPrefix (lease_loop fetch now worker_id batch_size users m locks).attempts
        users ∧
      (lease_loop fetch now worker_id batch_size users m locks).manager.last_user_refresh
        = m.last_user_refresh := by
  induction users with
  | nil => exact fun m locks => ⟨List.nil_prefix, rfl⟩
  | cons user_id rest ih =>
    intro m locks
    simp only [lease_loop]
    split
    · split
      · split
        · exact ⟨isPrefix_cons _ _ _ (ih _ _).1,
            (ih _ _).2.trans (get_user_queue_last_refresh m user_id)⟩
        · exact ⟨⟨rest, rfl⟩, get_user_queue_last_refresh m user_id⟩
      · split
        · exact ⟨isPrefix_cons _ _ _ (ih _ _).1,
            (ih _ _).2.trans (get_user_queue_last_refresh m user_id)⟩
        · exact ⟨⟨rest, rfl⟩, get_user_queue_last_refresh m user_id⟩
    · exact ⟨isPrefix_cons _ _ _ (ih _ _).1, (ih _ _).2⟩

/-- Claim C2, counterexample: at a state where the active-set refresh
is overdue and user 2 carries the strictly higher priority score, a
`get_next_user_orders` call attempts the lock of user 1 before the lock
of user 2 (the set's internal order) and leaves `last_user_refresh`
untouched — the call neither refreshes the active set when due nor
orders its attempts by descending score. -/
theorem c2_counterexample :
    active_refresh_due c2_manager 100 = true ∧
    c2_manager.user_priority_scores 1 < c2_manager.user_priority_scores 2 ∧
    c2_result.attempts = [1, 2] ∧
    c2_result.manager.last_user_refresh = c2_manager.last_user_refresh ∧
    c2_result.leased = none := by
  refine ⟨by decide, by decide, by decide, by decide, by decide⟩

/-- Claim C2, amended: `get_next_user_orders` performs no active-set
refresh — `last_user_refresh` is the same after the call — and attempts
users in the internal iteration order of the active-user set rather
than by descending priority score: its lock-attempt trace is a prefix
of `active_users` in that order.  (The refresh-if-due and
descending-score iteration appear only in the single-order variant
`get_next_user_order`.) -/
theorem c2_amended (fetch : Nat → Option (List Order)) (now : Nat)
    (m : UserOrderManager) (locks : KV) (worker_id : String) (batch_size : Nat) :
    List.IsPrefix
      (get_next_user_orders fetch now m locks worker_id batch_size).attempts
      m.active_users ∧
    (get_next_user_orders fetch now m locks worker_id batch_size).manager.last_user_refresh
      = m.last_user_refresh :=
  lease_loop_spec fetch now worker_id batch_size m.active_users m locks

/-- On a dictionary with duplicate-free keys, `dict_get` returning a
value is the same as the pair being an entry. -/
theorem dict_get_eq_some_iff (d : StatusDict) (h : (d.map Prod.fst).Nodup)
    (k v : Nat) : dict_get d k = some v ↔ (k, v) ∈ d := by
  induction d with
  | nil => simp [dict_get]
  | cons p rest ih =>
    simp only [List.map_cons, List.nodup_cons] at h
    by_cases hk : p.1 = k
    · subst hk
      simp only [dict_get, List.mem_cons, if_true, Option.some.injEq]
      constructor
      · intro hv
        exact Or.inl (by rw [← hv])
      · rintro (he | hmem)
        · rw [show v = p.2 from congrArg Prod.snd he]
        · exact absurd (List.mem_map_of_mem Prod.fst hmem) h.1
    · simp only [dict_get, if_neg hk, List.mem_cons]
      rw [ih h.2]
      constructor
      · exact Or.inr
      · rintro (he | hmem)
        · exact absurd (congrArg Prod.fst he).symm hk
        · exact hmem

/-- Membership characterization of the status-change loop: with
duplicate-free current keys, `mk u os ns` is reported iff `u` existed
with value `os` and now has the different value `ns`. -/
theorem mem_status_change_records (last current : StatusDict)
    (hcur : (current.map Prod.fst).Nodup) (mk : Nat → Nat → Nat → StatusChange)
    (hmk : ∀ a1 b1 c1 a2 b2 c2, mk a1 b1 c1 = mk a2 b2 c2 → a1 = a2 ∧ b1 = b2 ∧ c1 = c2)
    (u os ns : Nat) :
    mk u os ns ∈ status_change_records last current mk ↔
      dict_get last u = some os ∧ dict_get current u = some ns ∧ os ≠ ns := by
  simp only [status_change_records, List.mem_filterMap]
  constructor
  · rintro ⟨p, hp, hf⟩
    rcases hd : dict_get last p.1 with _ | old
    · rw [hd] at hf
      simp at hf
    · rw [hd] at hf
      simp only [] at hf
      by_cases hne : old ≠ p.2
      · rw [if_pos hne] at hf
        simp only [Option.some.injEq] at hf
        obtain ⟨h1, h2, h3⟩ := hmk _ _ _ _ _ _ hf
        subst h1; subst h2; subst h3
        exact ⟨hd, (dict_get_eq_some_iff current hcur _ _).mpr (by simpa using hp), hne⟩
      · rw [if_neg hne] at hf
        simp at hf
  · rintro ⟨h1, h2, h3⟩
    refine ⟨(u, ns), (dict_get_eq_some_iff current hcur u ns).mp h2, ?_⟩
    simp [h1, h3]

/-- Membership characterization of the added loop: with duplicate-free
current keys, `mk u st` is reported iff `u` is new and has value
`st`. -/
theorem mem_added_records (last current : StatusDict)
    (hcur : (current.map Prod.fst).Nodup) (mk : Nat → Nat → StatusChange)
    (hmk : ∀ a1 b1 a2 b2, mk a1 b1 = mk a2 b2 → a1 = a2 ∧ b1 = b2)
    (u st : Nat) :
    mk u st ∈ added_records last current mk ↔
      dict_get last u = none ∧ dict_get current u = some st := by
  simp only [added_records, List.mem_filterMap]
  constructor
  · rintro ⟨p, hp, hf⟩
    rcases hd : dict_get last p.1 with _ | old
    · rw [hd] at hf
      simp only [Option.some.injEq] at hf
      obtain ⟨h1, h2⟩ := hmk _ _ _ _ hf
      subst h1; subst h2
      exact ⟨hd, (dict_get_eq_some_iff current hcur _ _).mpr (by simpa using hp)⟩
    · rw [hd] at hf
      simp at hf
  · rintro ⟨h1, h2⟩
    refine ⟨(u, st), (dict_get_eq_some_iff current hcur u st).mp h2, ?_⟩
    simp [h1]

/-- Every record of the status-change loop is an `mk` record. -/
theorem status_change_records_shape (last current : StatusDict)
    (mk : Nat → Nat → Nat → StatusChange) (c : StatusChange)
    (h : c ∈ status_change_records last current mk) : ∃ a b d, c = mk a b d := by
  simp only [status_change_records, List.mem_filterMap] at h
  obtain ⟨p, _, hf⟩ := h
  rcases hd : dict_get last p.1 with _ | old
  · rw [hd] at hf
    simp at hf
  · rw [hd] at hf
    simp only [] at hf
    by_cases hne : old ≠ p.2
    · rw [if_pos hne] at hf
      simp only [Option.some.injEq] at hf
      exact ⟨p.1, old, p.2, hf.symm⟩
    · rw [if_neg hne] at hf
      simp at hf

/-- Every record of the added loop is an `mk` record. -/
theorem added_records_shape (last current : StatusDict)
    (mk : Nat → Nat → StatusChange) (c : StatusChange)
    (h : c ∈ added_records last current mk) : ∃ a b, c = mk a b := by
  simp only [added_records, List.mem_filterMap] at h
  obtain ⟨p, _, hf⟩ := h
  rcases hd : dict_get last p.1 with _ | old
  · rw [hd] at hf
    simp only [Option.some.injEq] at hf
    exact ⟨p.1, p.2, hf.symm⟩
  · rw [hd] at hf
    simp at hf

/-- The status-change loop emits duplicate-free records when the
current keys are duplicate-free and `mk` is injective. -/
theorem status_change_records_nodup (last current : StatusDict)
    (hcur : (current.map Prod.fst).Nodup) (mk : Nat → Nat → Nat → StatusChange)
    (hmk : ∀ a1 b1 c1 a2 b2 c2, mk a1 b1 c1 = mk a2 b2 c2 → a1 = a2 ∧ b1 = b2 ∧ c1 = c2) :
    (status_change_records last current mk).Nodup := by
  refine List.Nodup.filterMap ?_ hcur.of_map
  intro a b c hfa hfb
  simp only [Option.mem_def] at hfa hfb
  rcases hda : dict_get last a.1 with _ | olda
  · rw [hda] at hfa
    simp at hfa
  · rw [hda] at hfa
    simp only [] at hfa
    by_cases hnea : olda ≠ a.2
    · rw [if_pos hnea] at hfa
      rcases hdb : dict_get last b.1 with _ | oldb
      · rw [hdb] at hfb
        simp at hfb
      · rw [hdb] at hfb
        simp only [] at hfb
        by_cases hneb : oldb ≠ b.2
        · rw [if_pos hneb] at hfb
          simp only [Option.some.injEq] at hfa hfb
          rw [← hfb] at hfa
          obtain ⟨h1, _, h3⟩ := hmk _ _ _ _ _ _ hfa
          exact Prod.ext h1 h3
        · rw [if_neg hneb] at hfb
          simp at hfb
    · rw [if_neg hnea] at hfa
      simp at hfa

/-- The added loop emits duplicate-free records when the current keys
are duplicate-free and `mk` is injective. -/
theorem added_records_nodup (last current : StatusDict)
    (hcur : (current.map Prod.fst).Nodup) (mk : Nat → Nat → StatusChange)
    (hmk : ∀ a1 b1 a2 b2, mk a1 b1 = mk a2 b2 → a1 = a2 ∧ b1 = b2) :
    (added_records last current mk).Nodup := by
  refine List.Nodup.filterMap ?_ hcur.of_map
  intro a b c hfa hfb
  simp only [Option.mem_def] at hfa hfb
  rcases hda : dict_get last a.1 with _ | olda
  · rw [hda] at hfa
    simp only [Option.some.injEq] at hfa
    rcases hdb : dict_get last b.1 with _ | oldb
    · rw [hdb] at hfb
      simp only [Option.some.injEq] at hfb
      rw [← hfb] at hfa
      obtain ⟨h1, h2⟩ := hmk _ _ _ _ hfa
      exact Prod.ext h1 h2
    · rw [hdb] at hfb
      simp at hfb
  · rw [hda] at hfa
    simp at hfa

/-- Claim C9: for consecutive snapshots whose key sets are
duplicate-free, the computed change set contains exactly one
`user_status_change old new` per user present in both snapshots with
differing status, exactly one `user_added status` per user absent
before and present now, the analogous group records, and nothing else —
in particular nothing for a user or group present in the first snapshot
and absent from the second, since by the four characterizations every
record's subject is present in the second snapshot. -/
theorem c9_detect_changes (s1 s2 : StatusSnapshot)
    (hu2 : (s2.user_statuses.map Prod.fst).Nodup)
    (hg2 : (s2.group_statuses.map Prod.fst).Nodup) :
    (∀ u os ns,
      StatusChange.user_status_change u os ns ∈ (detect_changes (some s1) s2).1 ↔
        dict_get s1.user_statuses u = some os ∧
          dict_get s2.user_statuses u = some ns ∧ os ≠ ns) ∧
    (∀ u st,
      StatusChange.user_added u st ∈ (detect_changes (some s1) s2).1 ↔
        dict_get s1.user_statuses u = none ∧ dict_get s2.user_statuses u = some st) ∧
    (∀ g os ns,
      StatusChange.group_status_change g os ns ∈ (detect_changes (some s1) s2).1 ↔
        dict_get s1.group_statuses g = some os ∧
          dict_get s2.group_statuses g = some ns ∧ os ≠ ns) ∧
    (∀ g st,
      StatusChange.group_added g st ∈ (detect_changes (some s1) s2).1 ↔
        dict_get s1.group_statuses g = none ∧ dict_get s2.group_statuses g = some st) ∧
    (detect_changes (some s1) s2).1.Nodup := by
  have husc : ∀ a1 b1 c1 a2 b2 c2 : Nat,
      StatusChange.user_status_change a1 b1 c1 = StatusChange.user_status_change a2 b2 c2 →
        a1 = a2 ∧ b1 = b2 ∧ c1 = c2 := fun a1 b1 c1 a2 b2 c2 h => by simpa using h
  have hgsc : ∀ a1 b1 c1 a2 b2 c2 : Nat,
      StatusChange.group_status_change a1 b1 c1 = StatusChange.group_status_change a2 b2 c2 →
        a1 = a2 ∧ b1 = b2 ∧ c1 = c2 := fun a1 b1 c1 a2 b2 c2 h => by simpa using h
  have hua : ∀ a1 b1 a2 b2 : Nat,
      StatusChange.user_added a1 b1 = StatusChange.user_added a2 b2 →
        a1 = a2 ∧ b1 = b2 := fun a1 b1 a2 b2 h => by simpa using h
  have hga : ∀ a1 b1 a2 b2 : Nat,
      StatusChange.group_added a1 b1 = StatusChange.group_added a2 b2 →
        a1 = a2 ∧ b1 = b2 := fun a1 b1 a2 b2 h => by simpa using h
  simp only [detect_changes, detect_user_changes, detect_group_changes]
  refine ⟨?_, ?_, ?_, ?_, ?_⟩
  · intro u os ns
    rw [List.mem_append, List.mem_append, List.mem_append]
    constructor
    · rintro ((h | h) | (h | h))
      · exact (mem_status_change_records _ _ hu2 _ husc u os ns).mp h
      · obtain ⟨a, b, he⟩ := added_records_shape _ _ _ _ h
        simp at he
      · obtain ⟨a, b, d, he⟩ := status_change_records_shape _ _ _ _ h
        simp at he
      · obtain ⟨a, b, he⟩ := added_records_shape _ _ _ _ h
        simp at he
    · intro h
      exact Or.inl (Or.inl ((mem_status_change_records _ _ hu2 _ husc u os ns).mpr h))
  · intro u st
    rw [List.mem_append, List.mem_append, List.mem_append]
    constructor
    · rintro ((h | h) | (h | h))
      · obtain ⟨a, b, d, he⟩ := status_change_records_shape _ _ _ _ h
        simp at he
      · exact (mem_added_records _ _ hu2 _ hua u st).mp h
      · obtain ⟨a, b, d, he⟩ := status_change_records_shape _ _ _ _ h
        simp at he
      · obtain ⟨a, b, he⟩ := added_records_shape _ _ _ _ h
        simp at he
    · intro h
      exact Or.inl (Or.inr ((mem_added_records _ _ hu2 _ hua u st).mpr h))
  · intro g os ns
    rw [List.mem_append, List.mem_append, List.mem_append]
    constructor
    · rintro ((h | h) | (h | h))
      · obtain ⟨a, b, d, he⟩ := status_change_records_shape _ _ _ _ h
        simp at he
      · obtain ⟨a, b, he⟩ := added_records_shape _ _ _ _ h
        simp at he
      · exact (mem_status_change_records _ _ hg2 _ hgsc g os ns).mp h
      · obtain ⟨a, b, he⟩ := added_records_shape _ _ _ _ h
        simp at he
    · intro h
      exact Or.inr (Or.inl ((mem_status_change_records _ _ hg2 _ hgsc g os ns).mpr h))
  · intro g st
    rw [List.mem_append, List.mem_append, List.mem_append]
    constructor
    · rintro ((h | h) | (h | h))
      · obtain ⟨a, b, d, he⟩ := status_change_records_shape _ _ _ _ h
        simp at he
      · obtain ⟨a, b, he⟩ := added_records_shape _ _ _ _ h
        simp at he
      · obtain ⟨a, b, d, he⟩ := status_change_records_shape _ _ _ _ h
        simp at he
      · exact (mem_added_records _ _ hg2 _ hga g st).mp h
    · intro h
      exact Or.inr (Or.inr ((mem_added_records _ _ hg2 _ hga g st).mpr h))
  · refine List.Nodup.append (List.Nodup.append ?_ ?_ ?_)
      (List.Nodup.append ?_ ?_ ?_) ?_
    · exact status_change_records_nodup _ _ hu2 _ husc
    · exact added_records_nodup _ _ hu2 _ hua
    · intro c h1 h2
      obtain ⟨a, b, d, he1⟩ := status_change_records_shape _ _ _ _ h1
      obtain ⟨e, f, he2⟩ := added_records_shape _ _ _ _ h2
      subst he1
      simp at he2
    · exact status_change_records_nodup _ _ hg2 _ hgsc
    · exact added_records_nodup _ _ hg2 _ hga
    · intro c h1 h2
      obtain ⟨a, b, d, he1⟩ := status_change_records_shape _ _ _ _ h1
      obtain ⟨e, f, he2⟩ := added_records_shape _ _ _ _ h2
      subst he1
      simp at he2
    · intro c h1 h2
      rcases List.mem_append.mp h1 with h1l | h1l <;>
        rcases List.mem_append.mp h2 with h2l | h2l
      · obtain ⟨a, b, d, he1⟩ := status_change_records_shape _ _ _ _ h1l
        obtain ⟨e, f, g, he2⟩ := status_change_records_shape _ _ _ _ h2l
        subst he1
        simp at he2
      · obtain ⟨a, b, d, he1⟩ := status_change_records_shape _ _ _ _ h1l
        obtain ⟨e, f, he2⟩ := added_records_shape _ _ _ _ h2l
        subst he1
        simp at he2
      · obtain ⟨a, b, he1⟩ := added_records_shape _ _ _ _ h1l
        obtain ⟨e, f, g, he2⟩ := status_change_records_shape _ _ _ _ h2l
        subst he1
        simp at he2
      · obtain ⟨a, b, he1⟩ := added_records_shape _ _ _ _ h1l
        obtain ⟨e, f, he2⟩ := added_records_shape _ _ _ _ h2l
        subst he1
        simp at he2

/-- Witness for claim C9 on concrete snapshots: the disable of user 1,
the appearance of user 4 and the closing of group 10 are each
reported. -/
theorem c9_detect_changes_witness :
    StatusChange.user_status_change 1 1 0 ∈ (detect_changes (some c9_s1) c9_s2).1 ∧
    StatusChange.user_added 4 1 ∈ (detect_changes (some c9_s1) c9_s2).1 ∧
    StatusChange.group_status_change 10 1 0 ∈ (detect_changes (some c9_s1) c9_s2).1 := by
  have h := c9_detect_changes c9_s1 c9_s2 (by decide) (by decide)
  exact ⟨(h.1 1 1 0).mpr (by decide), (h.2.1 4 1).mpr (by decide),
    (h.2.2.1 10 1 0).mpr (by decide)⟩

/-- Claim C10: on the very first detection call, when no previous
snapshot exists, the detector returns the empty change list — whatever
users and groups the snapshot already contains, with whatever statuses —
and merely records the snapshot as the baseline. -/
theorem c10_first_snapshot (current : StatusSnapshot) :
    detect_changes none current = ([], some current) := rfl

end OrderMonitor
